import Mathlib

/-!
Verification development for the free-text food recommendation pipeline
(`src/routes/ai.js`, route `POST /api/ai/recommendations`).

The JavaScript route is shallowly embedded as pure Lean functions:

* strings are `List Char` (`Str`) so that JavaScript's `includes`,
  `toLowerCase`, `trim`, `split(' ')` become executable list functions;
* JavaScript numbers that carry prices and rating averages are `ℚ`;
* the Mongo catalog snapshot (`Food.find().sort({createdAt:-1}).lean()`)
  is an explicit `List Food` argument, given in recency order;
* the Gemini call is an explicit `Oracle` argument: either the transport
  call throws (`Oracle.crash`) or it yields text whose JSON parse /
  array-coercion produced a list of answer objects (`Oracle.answers`;
  the code maps parse failure and non-array results to `[]`, so those
  are `Oracle.answers []`);
* `Array.prototype.sort` with the rating comparator is modelled by
  `List.insertionSort` with the corresponding total preorder: for a
  consistent comparator the ECMAScript sort is exactly the stable sort,
  and the stable-sorted result is unique, so any stable sorting
  algorithm is a faithful model;
* the `try`/`catch` around the route body is modelled by making the
  reconciliation step (the only code after the oracle call that can
  throw on oracle-controlled data, via `.toLowerCase()` on a non-string
  field) return `Except`, and routing both `Oracle.crash` and that
  error into the catch-block fallback.
-/

namespace FoodRec

/-- JavaScript strings, as lists of characters. -/
abbrev Str := List Char

/-- JavaScript `String.prototype.toLowerCase` (ASCII-faithful; the prompt
and catalog fields the route lowercases are ordinary text). -/
def toLower (s : Str) : Str := s.map Char.toLower

/-- JavaScript `s.includes(sub)`: `sub` occurs contiguously in `s`. -/
def includesStr (s sub : Str) : Bool :=
  match s with
  | [] => sub.isEmpty
  | c :: t => sub.isPrefixOf (c :: t) || includesStr t sub

/-- JavaScript `String.prototype.trim` (strips whitespace at both ends). -/
def trimStr (s : Str) : Str :=
  ((s.dropWhile Char.isWhitespace).reverse.dropWhile Char.isWhitespace).reverse

/-- JavaScript `s.split(' ')` (split at every single space character). -/
def splitOnSpaceAux : Str → Str → List Str
  | [], acc => [acc.reverse]
  | c :: t, acc =>
    if c = ' ' then acc.reverse :: splitOnSpaceAux t []
    else splitOnSpaceAux t (c :: acc)

/-- JavaScript `s.split(' ')`. -/
def splitOnSpace (s : Str) : List Str := splitOnSpaceAux s []

/-- Decimal digit characters, as matched by the regex class `\d`. -/
def isDigitCh (c : Char) : Bool := c.isDigit

/-- JavaScript `parseInt` on a non-empty run of decimal digits. -/
def digitsToNat (s : Str) : Nat :=
  s.foldl (fun n c => n * 10 + (c.toNat - 48)) 0

/-- Decimal rendering of a natural number (digits of `n`, base 10),
used for the `${rating.count}` template interpolation. -/
def natToStrCore : Nat → Nat → Str → Str
  | 0, _, acc => acc
  | fuel + 1, n, acc =>
    let acc' := Char.ofNat (48 + n % 10) :: acc
    if n < 10 then acc' else natToStrCore fuel (n / 10) acc'

/-- Decimal rendering of a natural number. -/
def natToStr (n : Nat) : Str := natToStrCore (n + 1) n []

/-- JavaScript `x.toFixed(1)` for the non-negative rating averages the
route formats: round to the nearest tenth (halves away from zero, i.e.
`⌊10q + 1/2⌋ = (20·num q + den q) / (2·den q)` for `q ≥ 0`) and print
one digit after the decimal point.  Computed on the numerator and
denominator directly. -/
def toFixed1 (q : ℚ) : Str :=
  let n : Nat := ((20 * q.num + (q.den : Int)) / (2 * (q.den : Int))).toNat
  natToStr (n / 10) ++ ('.' :: natToStr (n % 10))

/-- The four-tier `priceRange` enum `['₹', '₹₹', '₹₹₹', '₹₹₹₹']`
(the food-creation route coerces every stored value into it). -/
inductive PriceRange where
  | r1 | r2 | r3 | r4
deriving DecidableEq, Repr

/-- The `dietary` flag object stored on a catalog item. -/
structure Dietary where
  vegetarian : Bool
  vegan : Bool
  glutenfree : Bool
  halal : Bool
  kosher : Bool
deriving DecidableEq, Repr

/-- The `rating` sub-document: `{average, count}`. -/
structure Rating where
  average : ℚ
  count : Nat
deriving DecidableEq, Repr

/-- A catalog item as the route reads it.  `price` is `none` when the
document lacks the field; a present price of `0` is JavaScript-falsy and
the route treats it like a missing price in the budget pre-filter, which
`priceTruthy` below captures.  `rating` is `none` when the sub-document
is absent (the route guards every access with `food.rating && …`). -/
structure Food where
  title : Str
  description : Str
  cuisineType : Str
  vendorName : Str
  city : Str
  address : Str
  price : Option ℚ
  priceRange : PriceRange
  dietary : Dietary
  rating : Option Rating
deriving DecidableEq, Repr

/-- JavaScript truthiness of `food.price`: present and non-zero. -/
def priceTruthy (p : Option ℚ) : Bool :=
  match p with
  | none => false
  | some q => decide (q ≠ 0)

/-- The pair `(food.rating && food.rating.average) || 0` and the matching count:
the (average, count) pair with both components defaulted to zero. -/
def ratingKey (rt : Option Rating) : ℚ × Nat :=
  match rt with
  | none => (0, 0)
  | some r => (r.average, r.count)

/-! ### Constraint extraction (`ai.js` lines 64–136)

All extraction functions take the already-lowercased prompt
(`promptLower` in the source). -/

/-- The fixed city vocabulary (`cityKeywords`, line 68). -/
def cityKeywords : List Str :=
  ["mumbai", "delhi", "bangalore", "chennai", "kolkata", "hyderabad",
   "pune", "new york", "los angeles", "chicago", "london", "paris",
   "tokyo", "bombay", "calcutta", "rajpura", "patiala", "chandigarh",
   "amritsar", "ludhiana", "jalandhar"].map String.toList

/-- Line 69: `cityKeywords.find(city => promptLower.includes(city))`. -/
def mentionedCity (p : Str) : Option Str :=
  cityKeywords.find? (fun c => includesStr p c)

/-- The fixed cuisine vocabulary (`cuisineKeywords`, line 82); note that
it contains the dietary words `vegetarian` and `vegan`. -/
def cuisineKeywords : List Str :=
  ["italian", "indian", "chinese", "japanese", "thai", "mexican",
   "american", "mediterranean", "asian", "dessert", "vegetarian",
   "vegan", "korean", "french", "spanish"].map String.toList

/-- Line 83: `cuisineKeywords.find(cuisine => promptLower.includes(cuisine))`. -/
def mentionedCuisine (p : Str) : Option Str :=
  cuisineKeywords.find? (fun c => includesStr p c)

/-- Line 94: the vegetarian dietary constraint, suppressed by the
negation phrases `non-vegetarian` / `non vegetarian`. -/
def wantsVegetarian (p : Str) : Bool :=
  includesStr p ("vegetarian".toList) &&
  !includesStr p ("non-vegetarian".toList) &&
  !includesStr p ("non vegetarian".toList)

/-- Line 99: the vegan dietary constraint. -/
def wantsVegan (p : Str) : Bool := includesStr p ("vegan".toList)

/-- Line 104: the gluten-free dietary constraint. -/
def wantsGlutenFree (p : Str) : Bool :=
  includesStr p ("gluten-free".toList) || includesStr p ("gluten free".toList)

/-- Line 109: the halal dietary constraint. -/
def wantsHalal (p : Str) : Bool := includesStr p ("halal".toList)

/-! #### Budget regular expressions

The three regexes of lines 120, 126 and 132 are compiled by hand into
scanners.  Each regex is anchored nowhere, so JavaScript `match` finds
the leftmost position at which the whole pattern matches; the scanners
try every start position left to right.  The alternations involved are
prefix-disjoint at any given position and no alternative can consume a
digit or a space that a later mandatory part needs, so ordered greedy
matching without backtracking coincides with the regex semantics. -/

/-- Try a list of literal alternatives at the current position, in the
given order; on success return the rest of the input. -/
def matchFirstKw (kws : List Str) (s : Str) : Option Str :=
  match kws with
  | [] => none
  | k :: rest =>
    if k.isPrefixOf s then some (s.drop k.length) else matchFirstKw rest s

/-- Greedy `\s*`. -/
def dropSpaces (s : Str) : Str := s.dropWhile Char.isWhitespace

/-- Alternatives of `(?:under|below|less than|upto|up to)` in regex
order (line 120). -/
def underWords : List Str :=
  ["under", "below", "less than", "upto", "up to"].map String.toList

/-- Alternatives of `(?:over|above|more than)` in regex order
(line 126). -/
def overWords : List Str :=
  ["over", "above", "more than"].map String.toList

/-- Alternatives of the optional currency group `(?:₹|rs|rupees?)?`:
`₹`, `rs`, then `rupees?` which greedily tries `rupees` before
`rupee`. -/
def currencyWords : List Str :=
  ["₹", "rs", "rupees", "rupee"].map String.toList

/-- Match `\s*(?:₹|rs|rupees?)?\s*(\d+)` at the current position and
return the captured number. -/
def matchAmountAt (s : Str) : Option Nat :=
  let s1 := dropSpaces s
  let s2 := match matchFirstKw currencyWords s1 with
    | some r => r
    | none => s1
  let s3 := dropSpaces s2
  let ds := s3.takeWhile isDigitCh
  if ds.isEmpty then none else some (digitsToNat ds)

/-- Leftmost match of `(?:kw-alternatives)\s*(?:₹|rs|rupees?)?\s*(\d+)`:
the common shape of the `underMatch` and `overMatch` regexes. -/
def scanKwAmount (kws : List Str) (s : Str) : Option Nat :=
  match s with
  | [] => none
  | _ :: t =>
    match matchFirstKw kws s with
    | some rest =>
      match matchAmountAt rest with
      | some n => some n
      | none => scanKwAmount kws t
    | none => scanKwAmount kws t

/-- Line 120: `promptLower.match(/(?:under|below|less than|upto|up to)\s*(?:₹|rs|rupees?)?\s*(\d+)/)`,
returning the parsed captured amount. -/
def scanUnder (s : Str) : Option Nat := scanKwAmount underWords s

/-- Line 126: `promptLower.match(/(?:over|above|more than)\s*(?:₹|rs|rupees?)?\s*(\d+)/)`,
returning the parsed captured amount. -/
def scanOver (s : Str) : Option Nat := scanKwAmount overWords s

/-- Alternatives of `(?:-|to|and)` in regex order (line 132). -/
def rangeSeps : List Str := ["-", "to", "and"].map String.toList

/-- Match `(\d+)\s*(?:-|to|and)\s*(\d+)` at the current position. -/
def matchRangeAt (s : Str) : Option (Nat × Nat) :=
  let ds := s.takeWhile isDigitCh
  if ds.isEmpty then none
  else
    let r1 := dropSpaces (s.drop ds.length)
    match matchFirstKw rangeSeps r1 with
    | none => none
    | some r2 =>
      let r3 := dropSpaces r2
      let ds2 := r3.takeWhile isDigitCh
      if ds2.isEmpty then none else some (digitsToNat ds, digitsToNat ds2)

/-- Leftmost match of the range regex `(\d+)\s*(?:-|to|and)\s*(\d+)`
(line 132). -/
def scanRange (s : Str) : Option (Nat × Nat) :=
  match s with
  | [] => none
  | _ :: t =>
    match matchRangeAt s with
    | some r => some r
    | none => scanRange t

/-- Lines 115–136: the extracted `(budgetMin, budgetMax)` pair.
`budgetMax` comes from `underMatch`, `budgetMin` from `overMatch`; the
range match is applied, in the given order and unswapped, only when
neither directional pattern matched (`rangeMatch && !underMatch &&
!overMatch`). -/
def extractBudget (p : Str) : Option Nat × Option Nat :=
  let u := scanUnder p
  let o := scanOver p
  match scanRange p, u, o with
  | some (a, b), none, none => (some a, some b)
  | _, _, _ => (o, u)

/-! ### Catalog filtering (`ai.js` lines 65–209) -/

/-- The city filter callback (lines 71–78). -/
def cityPred (c : Str) (f : Food) : Bool :=
  let foodCity := toLower f.city
  let foodAddress := toLower f.address
  includesStr foodCity c || includesStr foodAddress c ||
  includesStr c foodCity ||
  (!foodCity.isEmpty && (splitOnSpace foodCity).any (fun w => includesStr w c))

/-- The cuisine filter callback (lines 85–90). -/
def cuisinePred (c : Str) (f : Food) : Bool :=
  let ct := toLower f.cuisineType
  includesStr ct c || includesStr c ct ||
  (!ct.isEmpty && (splitOnSpace ct).any (fun w => includesStr w c))

/-- The budget filter callback (lines 140–160).  When `food.price` is
falsy the `priceRange` tier heuristic against `budgetMax` applies;
otherwise the price must not exceed `budgetMax` nor fall below
`budgetMin`. -/
def budgetPred (bmin bmax : Option Nat) (f : Food) : Bool :=
  if !priceTruthy f.price then
    match bmax with
    | some m =>
      if m < 500 then f.priceRange == PriceRange.r1
      else if m < 1000 then
        f.priceRange == PriceRange.r1 || f.priceRange == PriceRange.r2
      else if m < 2000 then
        f.priceRange == PriceRange.r1 || f.priceRange == PriceRange.r2 ||
        f.priceRange == PriceRange.r3
      else true
    | none => true
  else
    !(match bmax with
      | some m => decide ((m : ℚ) < f.price.getD 0)
      | none => false) &&
    !(match bmin with
      | some m => decide (f.price.getD 0 < (m : ℚ))
      | none => false)

/-- One optional filter stage: `if (o) l = l.filter(pred(o))`. -/
def optFilter (o : Option α) (pred : α → Food → Bool) (l : List Food) : List Food :=
  match o with
  | some a => l.filter (pred a)
  | none => l

/-- One conditional filter stage: `if (b) l = l.filter(pred)`. -/
def condFilter (b : Bool) (pred : Food → Bool) (l : List Food) : List Food :=
  if b then l.filter pred else l

/-- The acceptance predicate of one optional stage. -/
def optPred (o : Option α) (pred : α → Food → Bool) (f : Food) : Bool :=
  match o with
  | some a => pred a f
  | none => true

/-- The acceptance predicate of one conditional stage. -/
def condPred (b : Bool) (pred : Food → Bool) (f : Food) : Bool :=
  if b then pred f else true

/-- Lines 65–161: the pre-filter chain producing `filteredFoods` (before
size capping), i.e. the sequential city, cuisine, four dietary, and
budget filters. -/
def filterFoods (p : Str) (foods : List Food) : List Food :=
  let bm := extractBudget p
  condFilter (bm.1.isSome || bm.2.isSome) (budgetPred bm.1 bm.2)
    (condFilter (wantsHalal p) (fun f => f.dietary.halal)
      (condFilter (wantsGlutenFree p) (fun f => f.dietary.glutenfree)
        (condFilter (wantsVegan p) (fun f => f.dietary.vegan)
          (condFilter (wantsVegetarian p) (fun f => f.dietary.vegetarian)
            (optFilter (mentionedCuisine p) cuisinePred
              (optFilter (mentionedCity p) cityPred foods))))))

/-- The Catalog Filter's acceptance predicate: the conjunction of the
stage predicates of `filterFoods` (an item survives the chain iff it
satisfies this; see `mem_filterFoods`). -/
def preAccept (p : Str) (f : Food) : Bool :=
  let bm := extractBudget p
  optPred (mentionedCity p) cityPred f &&
  optPred (mentionedCuisine p) cuisinePred f &&
  condPred (wantsVegetarian p) (fun f => f.dietary.vegetarian) f &&
  condPred (wantsVegan p) (fun f => f.dietary.vegan) f &&
  condPred (wantsGlutenFree p) (fun f => f.dietary.glutenfree) f &&
  condPred (wantsHalal p) (fun f => f.dietary.halal) f &&
  condPred (bm.1.isSome || bm.2.isSome) (budgetPred bm.1 bm.2) f

/-- Lines 168–175: `wasFiltered`.  Note it tests the raw
`promptLower.includes('vegetarian')` without the negation suppression. -/
def wasFiltered (p : Str) : Bool :=
  (mentionedCity p).isSome || (mentionedCuisine p).isSome ||
  includesStr p ("vegetarian".toList) ||
  includesStr p ("vegan".toList) ||
  includesStr p ("gluten-free".toList) ||
  includesStr p ("gluten free".toList) ||
  includesStr p ("halal".toList) ||
  (extractBudget p).2.isSome || (extractBudget p).1.isSome

/-- Lines 186–194: the size cap.  If filtering happened and produced
more than 50 candidates, keep the first 50 (recency order); if no
filtering happened, keep the first 30 of the full catalog. -/
def cappedFoods (p : Str) (foods : List Food) : List Food :=
  let ff := filterFoods p foods
  if wasFiltered p && decide (50 < ff.length) then ff.take 50
  else if !wasFiltered p then foods.take 30
  else ff

/-- The rating order used by all three `sort` comparators (lines
197–209, 432–442, 462–472): `a` may precede `b` iff `a`'s
(average, count) pair is lexicographically ≥ `b`'s, both components
defaulted to zero.  A consistent comparator under the ECMAScript stable
sort yields exactly the stable sort by this total preorder. -/
def keyLE (x y : ℚ × Nat) : Prop :=
  y.1 < x.1 ∨ (x.1 = y.1 ∧ y.2 ≤ x.2)

/-- Strictly-lower (average, count) pair, lexicographically: the
relation the ranking law (§8 of the spec) forbids from holding between
an earlier and a later list entry. -/
def keyLT (x y : ℚ × Nat) : Prop :=
  x.1 < y.1 ∨ (x.1 = y.1 ∧ x.2 < y.2)

instance : DecidableRel keyLE := fun x y => by
  unfold keyLE; infer_instance

instance : DecidableRel keyLT := fun x y => by
  unfold keyLT; infer_instance

/-- The sort order on catalog items (lines 197–209). -/
def foodLE (a b : Food) : Prop := keyLE (ratingKey a.rating) (ratingKey b.rating)

instance : DecidableRel foodLE := fun a b => by
  unfold foodLE; infer_instance

/-- Lines 186–209: the candidate list sent to the oracle — the capped
pre-filtered list, stably sorted by rating. -/
def candidateList (p : Str) (foods : List Food) : List Food :=
  List.insertionSort foodLE (cappedFoods p foods)

/-! ### Oracle answers and reconciliation (`ai.js` lines 274–342) -/

/-- A JSON field value of an oracle answer object, as the route's
dynamic code distinguishes them: `absent` for a missing or `null`
field (optional chaining short-circuits), `str` for a string, `junk`
for a (truthy) non-string value, on which `.toLowerCase()` throws a
`TypeError` that lands in the route's catch block.  (Falsy non-string
values behave like `absent` at the `rec.vendorName` truthiness gate and
are modelled by `absent` there.) -/
inductive JField where
  | absent
  | str (s : Str)
  | junk
deriving DecidableEq, Repr

/-- One entry of the array parsed from the oracle's text.  `reason` and
`matchScore` are only read through `||`-defaulting, so only their
string/absent distinction matters. -/
structure RecAnswer where
  title : JField
  vendorName : JField
  reason : Option Str
  matchScore : Option Str
deriving DecidableEq, Repr

/-- The outcome of the Gemini call: the transport either throws
(`crash`, handled by the catch block) or returns text that the parsing
step (lines 283–303) turns into a list of answer objects — parse
failures and non-array values become `answers []`. -/
inductive Oracle where
  | crash
  | answers (recs : List RecAnswer)
deriving DecidableEq, Repr

/-- A recommendation object returned to the client: the spread of the
matched catalog item plus `aiReason`, `matchScore`, `ratingDisplay`
(lines 330–340, 404–414, 477–487). -/
structure RecOut where
  food : Food
  aiReason : Str
  matchScore : Str
  ratingDisplay : Str
deriving DecidableEq, Repr

/-- JavaScript `x || d` defaulting for a possibly-absent string field (the empty
string is falsy). -/
def strOr (o : Option Str) (d : Str) : Str :=
  match o with
  | some s => if s.isEmpty then d else s
  | none => d

/-- Lines 330–339: `ratingDisplay` — note the branch tests
`rating.average > 0`, with `rating = matchedFood.rating || {average: 0,
count: 0}`. -/
def ratingDisplayFn (rt : Option Rating) : Str :=
  let r := rt.getD ⟨0, 0⟩
  if 0 < r.average then
    toFixed1 r.average ++ (" stars (".toList) ++ natToStr r.count ++ (" reviews)".toList)
  else "No ratings yet".toList

/-- Lines 330–340: the reconciled recommendation object built from a
matched catalog item and the answer entry. -/
def reconRec (f : Food) (a : RecAnswer) : RecOut :=
  { food := f
    aiReason := strOr a.reason
      ("A highly-rated ".toList ++ f.cuisineType ++
       " option matching your preferences".toList)
    matchScore := strOr a.matchScore ("Medium".toList)
    ratingDisplay := ratingDisplayFn f.rating }

/-- Lines 321–328: the vendor-name fallback match.  The callback first
tests `f.vendorName &&`, so candidates with an empty vendor name are
skipped without touching `rec.vendorName`. -/
def vendorFind (cands : List Food) (v : Str) : Option Food :=
  cands.find? (fun f =>
    !f.vendorName.isEmpty &&
    (trimStr (toLower f.vendorName) == trimStr (toLower v) ||
     includesStr (toLower f.vendorName) (toLower v)))

/-- The vendor-match step, reached when no title match was found.  A
falsy `rec.vendorName` (absent, null, or empty string) skips the step;
a junk value throws at `rec.vendorName.toLowerCase()` as soon as the
`find` callback reaches a candidate with a non-empty vendor name. -/
def vendorStep (cands : List Food) (a : RecAnswer) : Except Unit (Option Food) :=
  match a.vendorName with
  | .absent => .ok none
  | .str v => if v.isEmpty then .ok none else .ok (vendorFind cands v)
  | .junk =>
    if cands.any (fun f => !f.vendorName.isEmpty) then .error () else .ok none

/-- Lines 306–341: match one answer entry against the candidate list —
exact title match, then bidirectional substring title match, then
vendor match.  With an absent title the exact comparison against
`undefined` is always false and `includes(undefined)` coerces its
argument to the string `"undefined"`; with a junk title
`rec.title?.toLowerCase()` throws inside the first `find` callback, so
it throws exactly when the candidate list is non-empty. -/
def titleStep (cands : List Food) (a : RecAnswer) : Except Unit (Option Food) :=
  match a.title with
  | .junk => if cands.isEmpty then vendorStep cands a else .error ()
  | .absent =>
    match cands.find? (fun f => includesStr (toLower f.title) ("undefined".toList)) with
    | some f => .ok (some f)
    | none => vendorStep cands a
  | .str t =>
    match cands.find? (fun f => trimStr (toLower f.title) == trimStr (toLower t)) with
    | some f => .ok (some f)
    | none =>
      match cands.find? (fun f =>
          includesStr (toLower f.title) (toLower t) ||
          includesStr (toLower t) (toLower f.title)) with
      | some f => .ok (some f)
      | none => vendorStep cands a

/-- Reconcile one answer entry; unmatched entries become `none` (the
`return null` dropped by `.filter(Boolean)`). -/
def reconcileOne (cands : List Food) (a : RecAnswer) : Except Unit (Option RecOut) :=
  match titleStep cands a with
  | .error e => .error e
  | .ok none => .ok none
  | .ok (some f) => .ok (some (reconRec f a))

/-- Lines 306–342: `matchedFoods` — reconcile every answer in order and
drop the unmatched ones; a thrown `TypeError` aborts the whole map. -/
def reconcileAll (cands : List Food) : List RecAnswer → Except Unit (List RecOut)
  | [] => .ok []
  | a :: rest =>
    match reconcileOne cands a with
    | .error e => .error e
    | .ok m =>
      match reconcileAll cands rest with
      | .error e => .error e
      | .ok ms => .ok (match m with | some x => x :: ms | none => ms)

/-! ### Post-validation (`ai.js` lines 344–394) -/

/-- The post-validation city check (lines 347–353): only containment of
the constraint city in the item's city or address. -/
def postCityPred (c : Str) (f : Food) : Bool :=
  includesStr (toLower f.city) c || includesStr (toLower f.address) c

/-- The post-validation cuisine check (lines 356–361): only containment
of the constraint cuisine in the item's cuisine type. -/
def postCuisinePred (c : Str) (f : Food) : Bool :=
  includesStr (toLower f.cuisineType) c

/-- The post-validation budget-max check (lines 386–388): only applied
to a truthy price. -/
def postBudgetMaxPred (m : Nat) (f : Food) : Bool :=
  !(priceTruthy f.price && decide ((m : ℚ) < f.price.getD 0))

/-- The post-validation budget-min check (lines 389–391). -/
def postBudgetMinPred (m : Nat) (f : Food) : Bool :=
  !(priceTruthy f.price && decide (f.price.getD 0 < (m : ℚ)))

/-- Lines 345–394: the Post-Validator's acceptance predicate
(`validatedFoods` keeps exactly the matched items satisfying it). -/
def postAccept (p : Str) (f : Food) : Bool :=
  let bm := extractBudget p
  optPred (mentionedCity p) postCityPred f &&
  optPred (mentionedCuisine p) postCuisinePred f &&
  condPred (wantsVegetarian p) (fun f => f.dietary.vegetarian) f &&
  condPred (wantsVegan p) (fun f => f.dietary.vegan) f &&
  condPred (wantsGlutenFree p) (fun f => f.dietary.glutenfree) f &&
  condPred (wantsHalal p) (fun f => f.dietary.halal) f &&
  optPred bm.2 postBudgetMaxPred f &&
  optPred bm.1 postBudgetMinPred f

/-! ### Fallbacks and the full pipeline (`ai.js` lines 31–504) -/

/-- The sort order on recommendation objects (lines 432–442); the
spread objects carry the matched item's `rating`. -/
def recOutLE (a b : RecOut) : Prop :=
  keyLE (ratingKey a.food.rating) (ratingKey b.food.rating)

instance : DecidableRel recOutLE := fun a b => by
  unfold recOutLE; infer_instance

/-- Lines 404–414: a synthesized recommendation from a pre-filtered
candidate (fallback step 3). -/
def fallbackRec (f : Food) : RecOut :=
  { food := f
    aiReason := "This highly-rated ".toList ++ f.cuisineType ++
      " dish from ".toList ++ f.vendorName ++ " in ".toList ++ f.city ++
      " matches your request!".toList
    matchScore := "Medium".toList
    ratingDisplay := ratingDisplayFn f.rating }

/-- Lines 477–487: a recommendation of the catch-block top-rated
fallback. -/
def crashRec (f : Food) : RecOut :=
  { food := f
    aiReason := "This highly-rated ".toList ++ f.cuisineType ++
      " dish from ".toList ++ f.vendorName ++ " in ".toList ++ f.city ++
      " is a great option!".toList
    matchScore := "Medium".toList
    ratingDisplay := ratingDisplayFn f.rating }

/-- Lines 457–494: the catch-block fallback — re-read the catalog, sort
it all by rating, return the top 6 with the unavailability note. -/
def crashFallback (foods : List Food) : List RecOut :=
  ((List.insertionSort foodLE foods).take 6).map crashRec

/-- The route's response, reduced to what the pipeline decides:
`ok recs note` is a 200 payload (`note = true` exactly on the
catch-block fallback, which adds the `'AI service temporarily
unavailable'` note); the other constructors are the route's 400/404
responses, all of which carry no (or an empty) recommendation list. -/
inductive RecResult where
  | ok (recs : List RecOut) (note : Bool)
  | badRequest
  | noFoods
  | noMatch
  | noMatch2
deriving DecidableEq, Repr

/-- The item list of a response (`recommendations`; empty for every
error response). -/
def resultRecs : RecResult → List RecOut
  | .ok recs _ => recs
  | _ => []

/-- The whole `POST /api/ai/recommendations` handler (lines 31–504) as
a function of the prompt, the catalog snapshot (recency-descending, as
delivered by `Food.find().sort({createdAt: -1})`), and the oracle
outcome.  The API-key configuration guard is assumed satisfied (it
depends only on ambient configuration, not on the request). -/
def getRecommendations (prompt : Str) (foods : List Food) (orc : Oracle) : RecResult :=
  if (trimStr prompt).isEmpty then .badRequest
  else if foods.isEmpty then .noFoods
  else
    let p := toLower prompt
    if (filterFoods p foods).isEmpty && wasFiltered p then .noMatch
    else
      let cands := candidateList p foods
      match orc with
      | .crash => .ok (crashFallback foods) true
      | .answers recs =>
        match reconcileAll cands recs with
        | .error _ => .ok (crashFallback foods) true
        | .ok matched =>
          let validated := matched.filter (fun m => postAccept p m.food)
          let final := if validated.isEmpty then matched else validated
          if final.isEmpty then
            if !cands.isEmpty && wasFiltered p then
              .ok ((cands.take 5).map fallbackRec) false
            else .noMatch2
          else .ok ((List.insertionSort recOutLE final).take 6) false

instance : IsTotal (ℚ × Nat) keyLE where
  total x y := by
    unfold keyLE
    rcases lt_trichotomy x.1 y.1 with h | h | h
    · exact Or.inr (Or.inl h)
    · rcases Nat.le_total y.2 x.2 with h2 | h2
      · exact Or.inl (Or.inr ⟨h, h2⟩)
      · exact Or.inr (Or.inr ⟨h.symm, h2⟩)
    · exact Or.inl (Or.inl h)

instance : IsTrans (ℚ × Nat) keyLE where
  trans x y z hxy hyz := by
    unfold keyLE at hxy hyz ⊢
    rcases hxy with h1 | ⟨e1, c1⟩
    · rcases hyz with h2 | ⟨e2, c2⟩
      · exact Or.inl (h2.trans h1)
      · exact Or.inl (e2 ▸ h1)
    · rcases hyz with h2 | ⟨e2, c2⟩
      · exact Or.inl (e1 ▸ h2)
      · exact Or.inr ⟨e1.trans e2, c2.trans c1⟩

instance : IsTotal Food foodLE where
  total _ _ := IsTotal.total (r := keyLE) _ _

instance : IsTrans Food foodLE where
  trans _ _ _ hab hbc := IsTrans.trans (r := keyLE) _ _ _ hab hbc

instance : IsTotal RecOut recOutLE where
  total _ _ := IsTotal.total (r := keyLE) _ _

instance : IsTrans RecOut recOutLE where
  trans _ _ _ hab hbc := IsTrans.trans (r := keyLE) _ _ _ hab hbc

/-- The pairwise ranking-law relation on recommendation objects. -/
def noRankInversion (a b : RecOut) : Prop :=
  ¬ keyLT (ratingKey a.food.rating) (ratingKey b.food.rating)

/-! ### Concrete example inputs used by witnesses and counterexamples -/

/-- A vegan Pune item priced 250 with a chosen `cuisineType`. -/
def mkVeganPune (ct : Str) : Food :=
  { title := "vegan buddha bowl".toList
    description := "a fresh bowl".toList
    cuisineType := ct
    vendorName := "green cafe".toList
    city := "Pune".toList
    address := "MG Road, Pune".toList
    price := some 250
    priceRange := PriceRange.r2
    dietary := ⟨true, true, false, false, false⟩
    rating := some ⟨4, 10⟩ }

/-- The vegan Pune item with an ordinary cuisine type. -/
def exVeganPlain : Food := mkVeganPune ("indian".toList)

/-- The vegan Pune item whose cuisine type matches the `vegan`
cuisine keyword. -/
def exVeganGood : Food := mkVeganPune ("vegan".toList)

/-- A non-vegan Pune item priced 200. -/
def exChicken : Food :=
  { title := "chicken curry".toList
    description := "rich gravy".toList
    cuisineType := "indian".toList
    vendorName := "spice hut".toList
    city := "Pune".toList
    address := "FC Road, Pune".toList
    price := some 200
    priceRange := PriceRange.r2
    dietary := ⟨false, false, false, false, false⟩
    rating := some ⟨5, 20⟩ }

/-- An item priced 500 — above an `under 300` budget. -/
def exThali : Food :=
  { title := "royal thali".toList
    description := "festive platter".toList
    cuisineType := "indian".toList
    vendorName := "palace".toList
    city := "Pune".toList
    address := "camp area".toList
    price := some 500
    priceRange := PriceRange.r3
    dietary := ⟨false, false, false, false, false⟩
    rating := some ⟨4, 2⟩ }

/-- An item priced 100 — within an `under 300` budget. -/
def exDal : Food :=
  { exThali with title := "simple dal".toList, price := some 100 }

/-- An item for the duplication scenario. -/
def exPizza : Food :=
  { exThali with title := "margherita pizza".toList, price := some 150 }

/-- An item with rating average 3 but count 0. -/
def exZero : Food :=
  { exThali with
    title := "plain idli".toList
    price := some 40
    rating := some ⟨3, 0⟩ }

/-- An item whose two-letter cuisine type `as` is contained in the
cuisine keyword `asian` (but not vice versa). -/
def exAs : Food :=
  { exThali with cuisineType := "as".toList, price := some 100 }

/-- An item whose cuisine type is exactly `asian`, with a truthy
price. -/
def exAsianOk : Food :=
  { exThali with cuisineType := "asian".toList, price := some 100 }

/-- Scenario A's prompt. -/
def promptVeganPune : Str := "vegan food under 300 in Pune".toList

/-- A prompt with only an `under 300` budget constraint. -/
def promptUnder300 : Str := "food under 300".toList

/-- A prompt with no recognizable keyword. -/
def promptTasty : Str := "tasty food".toList

/-- A prompt with only the cuisine keyword `asian`. -/
def promptAsian : Str := "asian food".toList

/-- A prompt with the negated vegetarian phrase. -/
def promptNonVeg : Str := "non-vegetarian food".toList

/-- A prompt with only the city keyword `rajpura`. -/
def promptRajpura : Str := "food in rajpura".toList

/-- A prompt matching only the bare range pattern, with the bounds in
decreasing order. -/
def promptRange : Str := "between 900 and 100".toList

/-- A well-formed oracle answer naming `exPizza`'s exact title. -/
def ansPizza : RecAnswer :=
  ⟨JField.str ("margherita pizza".toList), JField.absent,
   some ("yum".toList), some ("High".toList)⟩

/-- A well-formed oracle answer naming `exVeganPlain`'s exact title. -/
def ansVegan : RecAnswer :=
  ⟨JField.str ("vegan buddha bowl".toList), JField.absent,
   some ("fits the request".toList), some ("High".toList)⟩

/-- A well-formed oracle answer naming `exZero`'s exact title. -/
def ansZero : RecAnswer :=
  ⟨JField.str ("plain idli".toList), JField.absent, none, none⟩

/-! ### Helper lemmas -/

open List

theorem mem_optFilter {o : Option α} {pred : α → Food → Bool} {l : List Food} {f : Food} :
    f ∈ optFilter o pred l ↔ f ∈ l ∧ optPred o pred f = true := by
  cases o <;> simp [optFilter, optPred, List.mem_filter]

theorem mem_condFilter {b : Bool} {pred : Food → Bool} {l : List Food} {f : Food} :
    f ∈ condFilter b pred l ↔ f ∈ l ∧ condPred b pred f = true := by
  cases b <;> simp [condFilter, condPred, List.mem_filter]

/-- An item survives the pre-filter chain iff it is in the catalog and
satisfies the Catalog Filter's acceptance predicate. -/
theorem mem_filterFoods {p : Str} {foods : List Food} {f : Food} :
    f ∈ filterFoods p foods ↔ f ∈ foods ∧ preAccept p f = true := by
  simp only [filterFoods, preAccept, mem_condFilter, mem_optFilter,
    Bool.and_eq_true, and_assoc]

/-- The sort order never puts an element with a strictly
lexicographically lower (average, count) pair first. -/
theorem keyLE_not_keyLT {x y : ℚ × Nat} (h : keyLE x y) : ¬ keyLT x y := by
  unfold keyLE at h
  unfold keyLT
  rcases h with h | ⟨e, c⟩
  · rintro (h2 | ⟨e2, c2⟩)
    · exact absurd h (lt_asymm h2)
    · exact absurd h (e2 ▸ lt_irrefl _)
  · rintro (h2 | ⟨e2, c2⟩)
    · exact absurd h2 (e ▸ lt_irrefl _)
    · exact absurd (Nat.lt_of_lt_of_le c2 c) (Nat.lt_irrefl _)

theorem pairwise_take_sort_food (l : List Food) (n : Nat) (g : Food → RecOut)
    (hg : ∀ f, (g f).food = f) :
    (((List.insertionSort foodLE l).take n).map g).Pairwise noRankInversion := by
  have hs : (List.insertionSort foodLE l).Pairwise foodLE :=
    List.sorted_insertionSort foodLE l
  have ht : ((List.insertionSort foodLE l).take n).Pairwise foodLE :=
    hs.sublist (List.take_sublist n _)
  refine List.pairwise_map.mpr (ht.imp ?_)
  intro a b hab
  unfold noRankInversion
  rw [hg a, hg b]
  exact keyLE_not_keyLT hab

theorem pairwise_take_sort_recOut (l : List RecOut) (n : Nat) :
    ((List.insertionSort recOutLE l).take n).Pairwise noRankInversion := by
  have hs : (List.insertionSort recOutLE l).Pairwise recOutLE :=
    List.sorted_insertionSort recOutLE l
  exact (hs.sublist (List.take_sublist n _)).imp (fun h => keyLE_not_keyLT h)

/-- Vendor-step matches come from the candidate list. -/
theorem vendorStep_mem {cands : List Food} {a : RecAnswer} {f : Food}
    (h : vendorStep cands a = Except.ok (some f)) : f ∈ cands := by
  unfold vendorStep at h
  split at h
  · simp at h
  · split at h
    · simp at h
    · simp only [Except.ok.injEq] at h
      unfold vendorFind at h
      exact List.mem_of_find?_eq_some h
  · split at h <;> simp at h

/-- Title-step matches come from the candidate list. -/
theorem titleStep_mem {cands : List Food} {a : RecAnswer} {f : Food}
    (h : titleStep cands a = Except.ok (some f)) : f ∈ cands := by
  unfold titleStep at h
  split at h
  · split at h
    · exact vendorStep_mem h
    · simp at h
  · split at h
    · rename_i g hfind
      simp only [Except.ok.injEq, Option.some.injEq] at h
      rw [← h]
      exact List.mem_of_find?_eq_some hfind
    · exact vendorStep_mem h
  · split at h
    · rename_i g hfind
      simp only [Except.ok.injEq, Option.some.injEq] at h
      rw [← h]
      exact List.mem_of_find?_eq_some hfind
    · split at h
      · rename_i g hfind
        simp only [Except.ok.injEq, Option.some.injEq] at h
        rw [← h]
        exact List.mem_of_find?_eq_some hfind
      · exact vendorStep_mem h

/-- A reconciled entry is the enrichment of some candidate-list item. -/
theorem reconcileOne_inv {cands : List Food} {a : RecAnswer} {m : RecOut}
    (h : reconcileOne cands a = Except.ok (some m)) :
    ∃ f ∈ cands, m = reconRec f a := by
  unfold reconcileOne at h
  split at h
  · simp at h
  · simp at h
  · rename_i f hstep
    simp only [Except.ok.injEq, Option.some.injEq] at h
    exact ⟨f, titleStep_mem hstep, h.symm⟩

/-- Every reconciled recommendation's item comes from the candidate
list. -/
theorem reconcileAll_mem {cands : List Food} {recs : List RecAnswer} {ms : List RecOut}
    (h : reconcileAll cands recs = Except.ok ms) :
    ∀ m ∈ ms, m.food ∈ cands := by
  induction recs generalizing ms with
  | nil =>
    unfold reconcileAll at h
    cases h
    intro m hm
    exact absurd hm (by simp)
  | cons a rest ih =>
    unfold reconcileAll at h
    rcases h1 : reconcileOne cands a with e | mo <;> rw [h1] at h
    · exact absurd h (by simp)
    · rcases h2 : reconcileAll cands rest with e | ms' <;> rw [h2] at h
      · exact absurd h (by simp)
      · cases h
        intro m hm
        rcases mo with _ | x
        · exact ih h2 m hm
        · rcases List.mem_cons.mp hm with rfl | hm'
          · obtain ⟨f, hf, rfl⟩ := reconcileOne_inv h1
            exact hf
          · exact ih h2 m hm'

/-- Under an extracted constraint, candidate-list items come from the
pre-filtered list. -/
theorem mem_candidateList_of_wasFiltered {p : Str} {foods : List Food} {f : Food}
    (hw : wasFiltered p = true) (h : f ∈ candidateList p foods) :
    f ∈ filterFoods p foods := by
  unfold candidateList at h
  replace h := (List.perm_insertionSort foodLE _).mem_iff.mp h
  unfold cappedFoods at h
  rw [hw] at h
  simp only [Bool.true_and, Bool.not_true, Bool.false_eq_true, if_false] at h
  split at h
  · exact List.take_subset _ _ h
  · exact h

/-- An `under N` match makes the extracted `budgetMax` equal `N`. -/
theorem budgetMax_of_under {p : Str} {N : Nat} (hu : scanUnder p = some N) :
    (extractBudget p).2 = some N := by
  unfold extractBudget
  rw [hu]
  rcases scanRange p with _ | ⟨a, b⟩ <;> rcases scanOver p with _ | o <;> rfl

/-- An `under N` match makes `wasFiltered` true. -/
theorem wasFiltered_of_under {p : Str} {N : Nat} (hu : scanUnder p = some N) :
    wasFiltered p = true := by
  unfold wasFiltered
  have h2 : (extractBudget p).2.isSome = true := by rw [budgetMax_of_under hu]; rfl
  simp [h2]

/-- Surviving the pre-filter under an extracted `budgetMax = N` bounds
every known numeric price by `N`. -/
theorem price_le_of_mem_filterFoods {p : Str} {foods : List Food} {f : Food} {N : Nat}
    (hb : (extractBudget p).2 = some N) (h : f ∈ filterFoods p foods) :
    ∀ q : ℚ, f.price = some q → q ≤ (N : ℚ) := by
  intro q hq
  have hacc := (mem_filterFoods.mp h).2
  unfold preAccept at hacc
  simp only [Bool.and_eq_true] at hacc
  have hcond := hacc.2
  have hsome : ((extractBudget p).1.isSome || (extractBudget p).2.isSome) = true := by
    rw [hb]; simp
  rw [condPred, if_pos hsome] at hcond
  unfold budgetPred at hcond
  by_cases hp : priceTruthy f.price = true
  · rw [hp] at hcond
    simp only [Bool.not_true, Bool.false_eq_true, if_false, Bool.and_eq_true] at hcond
    have h1 := hcond.1
    rw [hb] at h1
    simp only [Bool.not_eq_true'] at h1
    have : ¬ ((N : ℚ) < f.price.getD 0) := by
      intro hlt
      rw [decide_eq_true hlt] at h1
      exact Bool.true_eq_false.mp h1
    rw [hq] at this
    exact le_of_not_lt this
  · have hq0 : q = 0 := by
      unfold priceTruthy at hp
      rw [hq] at hp
      simpa using hp
    rw [hq0]
    exact_mod_cast Nat.zero_le N

/-! ### Claim theorems -/

/-- C5: the bare numeric range pattern sets `budgetMin`/`budgetMax`
only when neither the under- nor the over-pattern matched, and when it
applies it assigns `budgetMin = N` and `budgetMax = M` exactly in the
given order (not swapped even if `N > M`). -/
theorem range_budget_only_without_directional (p : Str) (n m : Nat)
    (hr : scanRange p = some (n, m)) :
    extractBudget p =
      if scanUnder p = none ∧ scanOver p = none then (some n, some m)
      else (scanOver p, scanUnder p) := by
  rcases hu : scanUnder p with _ | u <;> rcases ho : scanOver p with _ | o <;>
    simp [extractBudget, hr, hu, ho]

/-- Witness for C5 at the decreasing-order range prompt
`between 900 and 100`: the bounds are not swapped. -/
theorem range_budget_only_without_directional_w :
    scanRange promptRange = some (900, 100) ∧
    extractBudget promptRange = (some 900, some 100) := by
  constructor
  · decide
  · have h := range_budget_only_without_directional promptRange 900 100 (by decide)
    rw [h]
    decide

/-- C7: the candidate list is the quality-sorted version of the capped
list — first 50 of the filtered list when filtering occurred and
produced more than 50, first 30 of the full catalog when no filtering
occurred — and the cap (applied before the rating sort) bounds its
length accordingly. -/
theorem size_cap_before_rating_sort (p : Str) (foods : List Food) :
    candidateList p foods =
      List.insertionSort foodLE
        (if wasFiltered p && decide (50 < (filterFoods p foods).length)
         then (filterFoods p foods).take 50
         else if !wasFiltered p then foods.take 30
         else filterFoods p foods) ∧
    (candidateList p foods).length ≤ (if wasFiltered p then 50 else 30) := by
  constructor
  · rfl
  · have hlen : (candidateList p foods).length = (cappedFoods p foods).length :=
      (List.perm_insertionSort foodLE _).length_eq
    rw [hlen]
    unfold cappedFoods
    by_cases hw : wasFiltered p = true
    · simp only [hw, Bool.true_and, Bool.not_true, Bool.false_eq_true, if_false, if_true]
      split
    -- the cap cases
      · simp [List.length_take]
      · rename_i hc
        exact Nat.le_of_not_lt (by simpa using hc)
    · have hw' : wasFiltered p = false := Bool.eq_false_iff.mpr hw
      simp only [hw', Bool.false_and, Bool.not_false, Bool.false_eq_true, if_false, if_true]
      simp [List.length_take]

/-- C2: when a constraint was extracted (`wasFiltered`) and the
constraint filter empties the catalog, the pipeline short-circuits to
the no-match outcome with an empty item list, for every oracle
behaviour; the guards assumed are the upstream input validations (a
non-blank prompt and a non-empty catalog, §7 of the spec). -/
theorem constraint_nomatch_short_circuit (prompt : Str) (foods : List Food)
    (orc : Oracle)
    (hp : trimStr prompt ≠ []) (hf : foods ≠ [])
    (hw : wasFiltered (toLower prompt) = true)
    (he : filterFoods (toLower prompt) foods = []) :
    getRecommendations prompt foods orc = RecResult.noMatch ∧
    resultRecs (getRecommendations prompt foods orc) = [] := by
  have h1 : getRecommendations prompt foods orc = RecResult.noMatch := by
    simp [getRecommendations, List.isEmpty_iff, hp, hf, he, hw]
  exact ⟨h1, by rw [h1]; rfl⟩

/-- Witness for C2: a `rajpura` city prompt against a Pune-only
catalog. -/
theorem constraint_nomatch_short_circuit_w :
    getRecommendations promptRajpura [exChicken] Oracle.crash = RecResult.noMatch ∧
    resultRecs (getRecommendations promptRajpura [exChicken] Oracle.crash) = [] :=
  constraint_nomatch_short_circuit promptRajpura [exChicken] Oracle.crash
    (by decide) (by decide) (by decide) (by decide)

/-- C10: the reconciler deduplicates nothing — a repeated oracle answer
reconciling to the same catalog item yields that item more than once in
the final returned list (here: twice for `exPizza`). -/
theorem reconciler_allows_duplicates :
    1 < ((resultRecs (getRecommendations promptTasty [exPizza]
      (Oracle.answers [ansPizza, ansPizza]))).countP (fun r => r.food == exPizza)) := by
  decide

/-- C8 counterexample: a reconciled recommendation whose matched item
has rating count 0 but average 3 gets the formatted display, not
`No ratings yet` — the claim's count-based branch condition is wrong. -/
theorem ratingDisplay_not_count_based :
    ∃ r ∈ resultRecs (getRecommendations promptTasty [exZero]
        (Oracle.answers [ansZero])),
      (r.food.rating.getD ⟨0, 0⟩).count = 0 ∧
      r.ratingDisplay ≠ "No ratings yet".toList ∧
      r.ratingDisplay = "3.0 stars (0 reviews)".toList := by
  refine ⟨reconRec exZero ansZero, ?_, ?_, ?_, ?_⟩ <;> decide

/-- C8 amended: for every reconciled recommendation, `ratingDisplay` is
`No ratings yet` exactly when the matched item's rating **average** is
not positive, and otherwise the formatted
`X.X stars (N reviews)` string. -/
theorem ratingDisplay_branches_on_average (cands : List Food) (a : RecAnswer)
    (m : RecOut) (h : reconcileOne cands a = Except.ok (some m)) :
    m.ratingDisplay =
      (if 0 < ((m.food.rating).getD ⟨0, 0⟩).average
       then toFixed1 ((m.food.rating).getD ⟨0, 0⟩).average ++ (" stars (".toList) ++
            natToStr ((m.food.rating).getD ⟨0, 0⟩).count ++ (" reviews)".toList)
       else "No ratings yet".toList) := by
  obtain ⟨f, hf, rfl⟩ := reconcileOne_inv h
  rfl

/-- Witness for the amended C8. -/
theorem ratingDisplay_branches_on_average_w :
    reconcileOne [exZero] ansZero = Except.ok (some (reconRec exZero ansZero)) ∧
    (reconRec exZero ansZero).ratingDisplay =
      (if 0 < (((reconRec exZero ansZero).food.rating).getD ⟨0, 0⟩).average
       then toFixed1 (((reconRec exZero ansZero).food.rating).getD ⟨0, 0⟩).average ++
            (" stars (".toList) ++
            natToStr (((reconRec exZero ansZero).food.rating).getD ⟨0, 0⟩).count ++
            (" reviews)".toList)
       else "No ratings yet".toList) :=
  ⟨rfl, ratingDisplay_branches_on_average [exZero] ansZero
    (reconRec exZero ansZero) rfl⟩

/-- C3 counterexample: for the extracted cuisine constraint `asian` and
an item with cuisine type `as`, the Catalog Filter accepts (its
containment test is bidirectional) but the Post-Validator rejects (its
test is one-directional) — the two predicates are not equivalent. -/
theorem pre_post_predicates_not_equivalent :
    preAccept promptAsian exAs = true ∧ postAccept promptAsian exAs = false := by
  decide

/-- C3 amended: for items with a truthy numeric price, the
Post-Validator's acceptance predicate implies the Catalog Filter's (the
converse fails, and for falsy prices the pre-filter's `priceRange`
heuristic can reject items the post-validator accepts). -/
theorem post_accept_implies_pre_accept (p : Str) (f : Food)
    (hp : priceTruthy f.price = true) (h : postAccept p f = true) :
    preAccept p f = true := by
  unfold postAccept at h
  unfold preAccept
  simp only [Bool.and_eq_true, and_assoc] at h ⊢
  obtain ⟨hcity, hcui, hveg, hvgn, hglu, hhal, hmax, hmin⟩ := h
  refine ⟨?_, ?_, hveg, hvgn, hglu, hhal, ?_⟩
  · rcases hc : mentionedCity p with _ | c
    · simp [optPred]
    · rw [hc] at hcity
      simp only [optPred] at hcity ⊢
      simp only [postCityPred, Bool.or_eq_true] at hcity
      simp only [cityPred, Bool.or_eq_true]
      rcases hcity with h1 | h1
      · exact Or.inl (Or.inl (Or.inl h1))
      · exact Or.inl (Or.inl (Or.inr h1))
  · rcases hc : mentionedCuisine p with _ | c
    · simp [optPred]
    · rw [hc] at hcui
      simp only [optPred] at hcui ⊢
      simp only [postCuisinePred] at hcui
      simp only [cuisinePred, Bool.or_eq_true]
      exact Or.inl (Or.inl hcui)
  · unfold condPred
    split
    · unfold budgetPred
      rw [hp]
      simp only [Bool.not_true, Bool.false_eq_true, if_false, Bool.and_eq_true]
      constructor
      · rcases hb : (extractBudget p).2 with _ | M
        · simp
        · rw [hb] at hmax
          simp only [optPred, postBudgetMaxPred, hp, Bool.true_and,
            Bool.not_eq_true'] at hmax
          simp [hmax]
      · rcases hb : (extractBudget p).1 with _ | M
        · simp
        · rw [hb] at hmin
          simp only [optPred, postBudgetMinPred, hp, Bool.true_and,
            Bool.not_eq_true'] at hmin
          simp [hmin]
    · rfl

/-- Witness for the amended C3. -/
theorem post_accept_implies_pre_accept_w :
    priceTruthy exAsianOk.price = true ∧
    postAccept promptAsian exAsianOk = true ∧
    preAccept promptAsian exAsianOk = true :=
  ⟨by decide, by decide,
    post_accept_implies_pre_accept promptAsian exAsianOk (by decide) (by decide)⟩

/-- Generic lemma: `find?` returns `vw` when `vw` is in the list, satisfies the
predicate, and everything listed before the first occurrence of `vw`
fails the predicate. -/
theorem find?_eq_of_takeWhile_false {pred : Str → Bool} {vw : Str} :
    ∀ {l : List Str}, vw ∈ l → pred vw = true →
      (∀ k ∈ l.takeWhile (fun k => !(k == vw)), pred k = false) →
      l.find? pred = some vw := by
  intro l
  induction l with
  | nil => intro h; exact absurd h (List.not_mem_nil vw)
  | cons a t ih =>
    intro hmem hpred hpre
    by_cases ha : a = vw
    · subst ha
      exact List.find?_cons_of_pos t hpred
    · have ha' : (!(a == vw)) = true := by simp [ha]
      have htw : (a :: t).takeWhile (fun k => !(k == vw)) =
          a :: t.takeWhile (fun k => !(k == vw)) := by
        simp [List.takeWhile_cons, ha']
      have hfa : pred a = false := by
        apply hpre a
        rw [htw]
        exact List.mem_cons_self a _
      rw [List.find?_cons_of_neg t (by simp [hfa])]
      refine ih ?_ hpred ?_
      · rcases List.mem_cons.mp hmem with rfl | h
        · exact absurd rfl ha
        · exact h
      · intro k hk
        apply hpre k
        rw [htw]
        exact List.mem_cons_of_mem a hk

/-- C9 (implicit): the cuisine vocabulary contains the dietary words —
for a prompt containing `vegetarian` or `vegan` and no earlier-listed
cuisine keyword, the cuisine constraint is set to that word and every
pre-filter survivor satisfies the cuisine predicate against its
`cuisineType`.  In particular a `non-vegetarian` prompt (vegetarian
dietary check suppressed) still cuisine-filters on `vegetarian`. -/
theorem dietary_words_act_as_cuisine (p : Str) (foods : List Food) (vw : Str)
    (hvw : vw = "vegetarian".toList ∨ vw = "vegan".toList)
    (hin : includesStr p vw = true)
    (hpre : ∀ k ∈ cuisineKeywords.takeWhile (fun k => !(k == vw)),
      includesStr p k = false) :
    mentionedCuisine p = some vw ∧
    ∀ f ∈ filterFoods p foods, cuisinePred vw f = true := by
  have hmem : vw ∈ cuisineKeywords := by rcases hvw with rfl | rfl <;> decide
  have hfind : mentionedCuisine p = some vw := by
    unfold mentionedCuisine
    exact find?_eq_of_takeWhile_false hmem hin hpre
  refine ⟨hfind, ?_⟩
  intro f hf
  have hacc := (mem_filterFoods.mp hf).2
  unfold preAccept at hacc
  simp only [Bool.and_eq_true, and_assoc] at hacc
  obtain ⟨_, hcui, _⟩ := hacc
  rw [hfind] at hcui
  simpa [optPred] using hcui

/-- Witness for C9 at the `non-vegetarian food` prompt. -/
theorem dietary_words_act_as_cuisine_w :
    mentionedCuisine promptNonVeg = some ("vegetarian".toList) ∧
    ∀ f ∈ filterFoods promptNonVeg [exChicken],
      cuisinePred ("vegetarian".toList) f = true :=
  dietary_words_act_as_cuisine promptNonVeg [exChicken] ("vegetarian".toList)
    (Or.inl rfl) (by decide) (by decide)

/-- C6: the ranking law — in every list the pipeline returns, on the
main path and on every fallback path, no earlier entry has a strictly
lexicographically lower (rating average, rating count) pair than a
later entry (absent ratings counting as (0, 0)). -/
theorem result_ranking_law (prompt : Str) (foods : List Food) (orc : Oracle) :
    (resultRecs (getRecommendations prompt foods orc)).Pairwise noRankInversion := by
  simp only [getRecommendations]
  repeat' split
  all_goals simp only [resultRecs, candidateList, crashFallback]
  all_goals
    first
    | exact List.Pairwise.nil
    | exact pairwise_take_sort_food foods 6 crashRec (fun _ => rfl)
    | exact pairwise_take_sort_food _ 5 fallbackRec (fun _ => rfl)
    | exact pairwise_take_sort_recOut _ 6

/-- Every item of a successful non-catch-block response (`note = false`)
comes from the candidate list. -/
theorem ok_false_members (prompt : Str) (foods : List Food) (orc : Oracle)
    (out : List RecOut)
    (hres : getRecommendations prompt foods orc = RecResult.ok out false) :
    ∀ r ∈ out, r.food ∈ candidateList (toLower prompt) foods := by
  intro r hr
  simp only [getRecommendations] at hres
  split at hres
  · exact absurd hres (by simp)
  · split at hres
    · exact absurd hres (by simp)
    · split at hres
      · exact absurd hres (by simp)
      · split at hres
        · exact absurd hres (by simp)
        · split at hres
          · exact absurd hres (by simp)
          · rename_i recs exc ms hrecon
            split at hres
            · -- validated empty, final = matched
              split at hres
              · -- final empty: fallback step 3 or no-match
                split at hres
                · injection hres with hout hnote
                  rw [← hout] at hr
                  obtain ⟨f, hf, rfl⟩ := List.mem_map.mp hr
                  exact List.take_subset _ _ hf
                · exact absurd hres (by simp)
              · -- main path on matched
                injection hres with hout hnote
                rw [← hout] at hr
                have hr2 := List.take_subset _ _ hr
                have hr3 := (List.perm_insertionSort recOutLE _).mem_iff.mp hr2
                exact reconcileAll_mem hrecon r hr3
            · -- validated non-empty, final = validated
              injection hres with hout hnote
              rw [← hout] at hr
              have hr2 := List.take_subset _ _ hr
              have hr3 := (List.perm_insertionSort recOutLE _).mem_iff.mp hr2
              exact reconcileAll_mem hrecon r (List.mem_filter.mp hr3).1

/-- C1 counterexample: for the prompt `food under 300` the catch-block
fallback path returns an item with known numeric price 500 > 300 — the
budget bound does not hold on every fallback path. -/
theorem budget_violated_by_crash_fallback :
    scanUnder (toLower promptUnder300) = some 300 ∧
    ∃ r ∈ resultRecs (getRecommendations promptUnder300 [exThali, exDal] Oracle.crash),
      ∃ q : ℚ, r.food.price = some q ∧ ((300 : Nat) : ℚ) < q := by
  refine ⟨by decide, ⟨crashRec exThali, ?_, 500, ?_, ?_⟩⟩ <;> decide

/-- C1 amended: for every `under N` prompt, every recommendation in any
returned list other than the catch-block (oracle-failure) fallback —
i.e. in any 200 response without the unavailability note — has its
known numeric price bounded by `N`. -/
theorem budget_respected_without_crash_fallback (prompt : Str) (foods : List Food)
    (orc : Oracle) (N : Nat) (out : List RecOut)
    (hu : scanUnder (toLower prompt) = some N)
    (hres : getRecommendations prompt foods orc = RecResult.ok out false) :
    ∀ r ∈ out, ∀ q : ℚ, r.food.price = some q → q ≤ (N : ℚ) := by
  intro r hr
  have hw : wasFiltered (toLower prompt) = true := wasFiltered_of_under hu
  have hb : (extractBudget (toLower prompt)).2 = some N := budgetMax_of_under hu
  have hcand := ok_false_members prompt foods orc out hres r hr
  have hff := mem_candidateList_of_wasFiltered hw hcand
  exact price_le_of_mem_filterFoods hb hff

/-- Witness for the amended C1: the `food under 300` prompt with a
100-priced item and a non-crashing oracle. -/
theorem budget_respected_without_crash_fallback_w :
    scanUnder (toLower promptUnder300) = some 300 ∧
    getRecommendations promptUnder300 [exThali, exDal] (Oracle.answers []) =
      RecResult.ok [fallbackRec exDal] false ∧
    ∀ q : ℚ, (fallbackRec exDal).food.price = some q → q ≤ ((300 : Nat) : ℚ) := by
  refine ⟨by decide, by decide, ?_⟩
  exact budget_respected_without_crash_fallback promptUnder300 [exThali, exDal]
    (Oracle.answers []) 300 [fallbackRec exDal] (by decide) (by decide)
    (fallbackRec exDal) (by decide)

/-- C4 counterexample: scenario A with ordinary cuisine types.  The
`vegan` cuisine keyword makes the cuisine filter test `cuisineType`
against `vegan`, so with both items of cuisine type `indian` the
pre-filter empties and the pipeline returns the no-match outcome — not
the vegan item — even though the oracle answered perfectly (naming the
vegan item's exact title). -/
theorem scenarioA_fails_on_plain_cuisine :
    getRecommendations promptVeganPune [exVeganPlain, exChicken]
      (Oracle.answers [ansVegan]) = RecResult.noMatch ∧
    resultRecs (getRecommendations promptVeganPune [exVeganPlain, exChicken]
      (Oracle.answers [ansVegan])) = [] := by
  constructor <;> decide

/-- C4 amended: scenario A holds when the vegan item's `cuisineType`
moreover matches the `vegan` cuisine keyword: for every oracle answer
list on which reconciliation does not throw, the result is a successful
non-fallback-note response whose every entry is the vegan item. -/
theorem scenarioA_with_vegan_cuisine (recs : List RecAnswer) (ms : List RecOut)
    (hrec : reconcileAll (candidateList (toLower promptVeganPune)
      [exVeganGood, exChicken]) recs = Except.ok ms) :
    ∃ out, getRecommendations promptVeganPune [exVeganGood, exChicken]
        (Oracle.answers recs) = RecResult.ok out false ∧
      out ≠ [] ∧ ∀ r ∈ out, r.food = exVeganGood := by
  have hcand : candidateList (toLower promptVeganPune) [exVeganGood, exChicken] =
      [exVeganGood] := by decide
  have hfoodV : ∀ m ∈ ms, m.food = exVeganGood := by
    intro m hm
    have h := reconcileAll_mem hrec m hm
    rw [hcand] at h
    simpa using h
  have hval : ms.filter (fun m => postAccept (toLower promptVeganPune) m.food) = ms :=
    List.filter_eq_self.mpr (fun m hm => by rw [hfoodV m hm]; decide)
  simp only [getRecommendations, hrec]
  rw [if_neg (by decide), if_neg (by decide), if_neg (by decide), hval, hcand, ite_self]
  rcases ms with _ | ⟨m0, mrest⟩
  · refine ⟨[fallbackRec exVeganGood], by decide, by simp, ?_⟩
    intro r hr
    simp at hr
    rw [hr]
    exact rfl
  · refine ⟨(List.insertionSort recOutLE (m0 :: mrest)).take 6, ?_, ?_, ?_⟩
    · rw [if_neg (by simp)]
    · have hne : List.insertionSort recOutLE (m0 :: mrest) ≠ [] := by
        intro h
        have hl := (List.perm_insertionSort recOutLE (m0 :: mrest)).length_eq
        rw [h] at hl
        simp at hl
      rcases hsort : List.insertionSort recOutLE (m0 :: mrest) with _ | ⟨x, xs⟩
      · exact absurd hsort hne
      · simp
    · intro r hr
      have hr2 := List.take_subset _ _ hr
      have hr3 := (List.perm_insertionSort recOutLE _).mem_iff.mp hr2
      exact hfoodV r hr3

/-- Witness for the amended C4, at the empty (well-formed) oracle
answer list. -/
theorem scenarioA_with_vegan_cuisine_w :
    ∃ out, getRecommendations promptVeganPune [exVeganGood, exChicken]
        (Oracle.answers []) = RecResult.ok out false ∧
      out ≠ [] ∧ ∀ r ∈ out, r.food = exVeganGood :=
  scenarioA_with_vegan_cuisine [] [] rfl

end FoodRec
